import Mathlib

/-!
# Verification of the Nederland excise-report pipeline

Shallow embedding of `src/1_Nederland_def.py` (the `process_files` pipeline
and its helpers `clean_csv` / `to_float_eu`).  Tables are lists of records,
pandas missing values (`NaN` / `NaT` / `pd.NA`) are `Option.none`, numeric
values are exact rationals (`ℚ`), and parsed timestamps are integers counting
microseconds.  Each pandas stage becomes a total Lean function on lists,
composed in the same order as the source.
-/

namespace Nederland

/-- Python `str(x)` applied to a cell of a `dtype=str` dataframe column:
a missing value (`NaN`) prints as the string `"nan"`; embeds the
`.astype(str)` coercions of lines 37, 85, 88, 98 of the source. -/
def pyStr (o : Option String) : String := o.getD "nan"

/-- Value of a list of ASCII decimal digits, most significant first. -/
def digitsToNat (cs : List Char) : Nat :=
  cs.foldl (fun a c => a * 10 + (c.toNat - 48)) 0

/-- Leading/trailing-whitespace strip (Python `str.strip()` /
the whitespace skipping of the pandas numeric parser). -/
def trimWs (cs : List Char) : List Char :=
  ((cs.dropWhile Char.isWhitespace).reverse.dropWhile Char.isWhitespace).reverse

/-- The numeric grammar accepted by `pd.to_numeric(·, errors="coerce")` on a
string made of sign/digit/dot characters: an optional sign followed by a
decimal literal containing at least one digit and at most one dot
(`"15.0"`, `".5"`, `"5."`, `"-7"` parse; `""`, `"-"`, `"1.2.3"`, `"1-2"`
do not).  `none` is the coerced `NaN`. -/
def parseDecimal (cs : List Char) : Option ℚ :=
  let signed : Bool × List Char :=
    match cs with
    | '-' :: t => (true, t)
    | '+' :: t => (false, t)
    | _ => (false, cs)
  let neg := signed.1
  let rest := signed.2
  if rest.all (fun c => c.isDigit || c = '.')
      && (rest.filter (fun c => c = '.')).length ≤ 1
      && rest.any Char.isDigit then
    let ip := rest.takeWhile (fun c => c ≠ '.')
    let fp := (rest.dropWhile (fun c => c ≠ '.')).tail
    let mag : ℚ := (digitsToNat ip : ℚ) + (digitsToNat fp : ℚ) / 10 ^ fp.length
    some (if neg then -mag else mag)
  else
    none

/-- `pd.to_numeric(s, errors="coerce")` on one string cell
(line 92 of the source): whitespace is stripped, then the decimal
grammar is applied; failure coerces to `NaN` (`none`). -/
def toNumeric (s : String) : Option ℚ :=
  parseDecimal (trimWs s.data)

/-- The character-level cleaning chain of `to_float_eu`
(lines 16–21 of the source), applied to one cell already coerced by
`astype(str)`: drop every `%`, turn NBSP into space, turn `,` into `.`,
drop every character that is not a digit, dot or minus
(the regex `[^0-9.\-]+` with empty replacement), and strip. -/
def toFloatEuClean (cs : List Char) : List Char :=
  let s1 := cs.filter (fun c => c ≠ '%')
  let s2 := s1.map (fun c => if c = '\u00A0' then ' ' else c)
  let s3 := s2.map (fun c => if c = ',' then '.' else c)
  let s4 := s3.filter (fun c => c.isDigit || c = '.' || c = '-')
  trimWs s4

/-- One element of `to_float_eu` (lines 10–22 of the source):
clean the text, then `pd.to_numeric(·, errors="coerce")`. -/
def to_float_eu_elem (s : String) : Option ℚ :=
  parseDecimal (toFloatEuClean s.data)

/-- `to_float_eu` over a whole column: elementwise, after the series-level
`astype(str)` (line 16); a missing cell becomes the text `"nan"`, which
parses to `none`. -/
def to_float_eu (col : List String) : List (Option ℚ) :=
  col.map to_float_eu_elem

/-- `to_float_eu` on a column that may hold missing values, as used at
line 47 of the source on the merged `Alcohol Percentage` column. -/
def toFloatEuOpt (o : Option String) : Option ℚ :=
  to_float_eu_elem (pyStr o)

/-- SKU normalisation, line 37 of the source:
`str.replace(r"(-\d+|[A-Z])$", "", regex=True)`.  The anchored regex has at
most one match: if the string ends in `-` followed by a nonempty run of
digits, that suffix is removed (the dash position is unique, so this is the
leftmost match); otherwise a single trailing ASCII uppercase letter is
removed; otherwise the string is unchanged.  (`\d` is modelled as the ASCII
digits, the range the pipeline's SKUs use.) -/
def normalizeSkuChars (cs : List Char) : List Char :=
  let rev := cs.reverse
  let ds := rev.takeWhile Char.isDigit
  if ds.length ≠ 0 && (rev.drop ds.length).head? = some '-' then
    ((rev.drop ds.length).tail).reverse
  else
    match rev with
    | c :: rest => if c.isUpper then rest.reverse else cs
    | [] => cs

/-- String form of `normalizeSkuChars`. -/
def normalizeSku (s : String) : String :=
  ⟨normalizeSkuChars s.data⟩

/-! ## Timestamps

`pd.to_datetime(·, errors="coerce")` after `str.slice(0, 19)` (lines 84–89).
Timestamps are modelled as integer microsecond counts from the civil epoch
1970-01-01 00:00:00, the canonical `YYYY-MM-DD HH:MM:SS` layout being the
input format the pipeline's callers supply (§6 of the spec); any string not
in that 19-character layout coerces to `NaT` (`none`). -/

/-- Gregorian leap-year test. -/
def isLeap (y : Nat) : Bool :=
  (y % 4 = 0 && y % 100 ≠ 0) || y % 400 = 0

/-- Days in a month of the proleptic Gregorian calendar. -/
def daysInMonth (y m : Nat) : Nat :=
  if m = 2 then (if isLeap y then 29 else 28)
  else if m = 4 || m = 6 || m = 9 || m = 11 then 30
  else 31

/-- Days from 1970-01-01 to the civil date `y-m-d`
(Howard Hinnant's `days_from_civil`, restricted to `y ≥ 1`). -/
def daysFromCivil (y m d : Nat) : Int :=
  let y' : Int := if m ≤ 2 then (y : Int) - 1 else (y : Int)
  let era : Int := y' / 400
  let yoe : Int := y' - era * 400
  let mp : Int := if m > 2 then (m : Int) - 3 else (m : Int) + 9
  let doy : Int := (153 * mp + 2) / 5 + (d : Int) - 1
  let doe : Int := yoe * 365 + yoe / 4 - yoe / 100 + doy
  era * 146097 + doe - 719468

/-- Microsecond count of the civil timestamp `y-m-d h:mi:s`. -/
def civilMicros (y m d h mi s : Nat) : Int :=
  ((daysFromCivil y m d * 24 + (h : Int)) * 60 + (mi : Int)) * 60 * 1000000
    + (s : Int) * 1000000

/-- Value of the two-digit pair at the given characters, if both are digits. -/
def twoDigits (a b : Char) : Option Nat :=
  if a.isDigit && b.isDigit then some (digitsToNat [a, b]) else none

/-- `pd.to_datetime(s.str.slice(0,19), errors="coerce")` on one cell:
the first 19 characters must be a valid `YYYY-MM-DD HH:MM:SS` civil
timestamp, otherwise the value coerces to `NaT` (`none`). -/
def parseDatetime19 (s : String) : Option Int :=
  match s.data.take 19 with
  | [y1, y2, y3, y4, '-', m1, m2, '-', d1, d2, ' ', h1, h2, ':', n1, n2, ':', s1, s2] =>
    if [y1, y2, y3, y4].all Char.isDigit then
      match twoDigits m1 m2, twoDigits d1 d2, twoDigits h1 h2,
          twoDigits n1 n2, twoDigits s1 s2 with
      | some mo, some da, some ho, some mi, some se =>
        let yr := digitsToNat [y1, y2, y3, y4]
        if 1 ≤ mo && mo ≤ 12 && 1 ≤ da && da ≤ daysInMonth yr mo
            && ho ≤ 23 && mi ≤ 59 && se ≤ 59 then
          some (civilMicros yr mo da ho mi se)
        else none
      | _, _, _, _, _ => none
    else none
  | _ => none

/-! ## Data model -/

/-- One row of the main Shopify export, read with `dtype=str`
(line 31): every cell is a string or missing.  The columns are the
minimum schema of §6 of the spec. -/
structure MainRow where
  name : Option String
  createdAt : Option String
  fulfillmentStatus : Option String
  fulfilledAt : Option String
  lineitemSku : Option String
  lineitemQty : Option String
  lineitemName : Option String
  billingName : Option String
  billingStreet : Option String
  billingCountry : Option String
deriving DecidableEq, Repr

/-- The main export table; `hasFulfillmentStatus` records whether the
optional `Fulfillment Status` column is present (line 32). -/
structure MainTable where
  hasFulfillmentStatus : Bool
  rows : List MainRow
deriving Repr

/-- One row of the cleaned reference table (its two schema columns,
`SKU` and `Alcohol Percentage`), read with `dtype=str`. -/
structure RefRow where
  sku : Option String
  alcoholPct : Option String
deriving DecidableEq, Repr

/-- An order row entering the join: the original row plus its
normalised SKU key (line 37 rewrites the `SKU` column in place). -/
structure PreJoinRow where
  base : MainRow
  sku : String
deriving DecidableEq, Repr

/-- A row of the merged frame (line 44): an order row, its SKU key, and
the raw alcohol-percentage string of the matched reference row, if any. -/
structure MergedRow where
  base : MainRow
  sku : String
  alcoholRaw : Option String
deriving DecidableEq, Repr

/-- The merged frame after line 47 converts `Alcohol Percentage` to
numeric, flattened to the columns later stages touch. -/
structure DataRow where
  name : Option String
  createdAt : Option String
  fulfillmentStatus : Option String
  fulfilledAt : Option String
  lineitemQty : Option String
  lineitemName : Option String
  billingName : Option String
  billingStreet : Option String
  billingCountry : Option String
  alcohol : Option ℚ
deriving DecidableEq, Repr

/-- A row of `new_df`/`filtered_df`/`final_data` (lines 57–123): the
twelve projected report columns with parsed dates and derived numerics. -/
structure ReportRow where
  invoiceOrder : Option String
  invoiceDate : Option Int
  deliveryDate : Option Int
  nameOfClient : Option String
  addressDetails : Option String
  productName : Option String
  numberSold : ℚ
  content : Option ℚ
  totalContent : Option ℚ
  alcoholPct : Option ℚ
  platoPct : ℚ
  country : Option String
deriving DecidableEq, Repr

/-- A row of the returned table (after lines 130–147): summary rows leave
every column missing except the label and the total, and the
alcohol percentage has been rendered as text. -/
structure OutRow where
  invoiceOrder : Option String
  invoiceDate : Option Int
  deliveryDate : Option Int
  nameOfClient : Option String
  addressDetails : Option String
  productName : Option String
  numberSold : Option ℚ
  content : Option ℚ
  totalContent : Option ℚ
  alcoholPctText : String
  platoPct : Option ℚ
  country : Option String
deriving DecidableEq, Repr

/-! ## Pipeline stages -/

/-- Helper for `dropDuplicates`: keep the rows not seen before, threading
the set of already-kept rows. -/
def dropDupAux [DecidableEq α] (seen : List α) : List α → List α
  | [] => []
  | x :: xs =>
    if x ∈ seen then dropDupAux seen xs
    else x :: dropDupAux (x :: seen) xs

/-- `drop_duplicates()` (lines 41 and 123): keep the first occurrence of
each row and drop later exact duplicates. -/
def dropDuplicates [DecidableEq α] (l : List α) : List α :=
  dropDupAux [] l

/-- Lines 32–33: when the `Fulfillment Status` column is present, drop the
rows whose status equals `"restocked"` (a missing status compares unequal
and is kept); when it is absent, the filter is skipped. -/
def restockFilter (t : MainTable) : List MainRow :=
  if t.hasFulfillmentStatus then
    t.rows.filter (fun r => decide (r.fulfillmentStatus ≠ some "restocked"))
  else
    t.rows

/-- Lines 36–37: rename `Lineitem sku` to `SKU` and normalise it in place
(`astype(str)` turns a missing SKU into the text `"nan"`). -/
def skuStage (rows : List MainRow) : List PreJoinRow :=
  rows.map (fun r => ⟨r, normalizeSku (pyStr r.lineitemSku)⟩)

/-- The reference rows whose `SKU` cell equals the given key (a missing
reference SKU matches no string key). -/
def refMatches (ref : List RefRow) (k : String) : List RefRow :=
  ref.filter (fun r => decide (r.sku = some k))

/-- The block of merged rows one order row contributes to the left join:
one row per matching reference row, in reference order, or a single row
with a missing percentage when nothing matches. -/
def mergeOne (o : PreJoinRow) (ref : List RefRow) : List MergedRow :=
  let ms := refMatches ref o.sku
  if ms.isEmpty then [⟨o.base, o.sku, none⟩]
  else ms.map (fun r => ⟨o.base, o.sku, r.alcoholPct⟩)

/-- `pd.merge(data, check[["SKU", "Alcohol Percentage"]], on="SKU",
how="left")` (line 44): left rows in order, each expanded by its matches. -/
def leftMerge (orders : List PreJoinRow) (ref : List RefRow) : List MergedRow :=
  orders.flatMap (fun o => mergeOne o ref)

/-- Lines 40–44 combined: the reference table is de-duplicated
(`drop_duplicates()`, first occurrence kept) before the left join. -/
def mergeStage (orders : List PreJoinRow) (ref : List RefRow) : List MergedRow :=
  leftMerge orders (dropDuplicates ref)

/-- Line 47: convert the merged `Alcohol Percentage` column to numeric with
`to_float_eu`, flattening to the columns later stages read. -/
def alcoholNumeric (m : MergedRow) : DataRow :=
  { name := m.base.name
    createdAt := m.base.createdAt
    fulfillmentStatus := m.base.fulfillmentStatus
    fulfilledAt := m.base.fulfilledAt
    lineitemQty := m.base.lineitemQty
    lineitemName := m.base.lineitemName
    billingName := m.base.billingName
    billingStreet := m.base.billingStreet
    billingCountry := m.base.billingCountry
    alcohol := toFloatEuOpt m.alcoholRaw }

/-- `Series.ffill()` on one column presented as a list: a missing cell
takes the nearest preceding non-missing value (`last` is the value carried
in from before the list). -/
def ffillList (last : Option α) : List (Option α) → List (Option α)
  | [] => []
  | o :: os =>
    let v := match o with
      | some x => some x
      | none => last
    v :: ffillList v os

/-- `Series.ffill()` on one column of a row record, via a getter and a
setter for that column. -/
def ffillBy (get : ρ → Option σ) (set : ρ → Option σ → ρ) :
    Option σ → List ρ → List ρ
  | _, [] => []
  | last, r :: rs =>
    let v := match get r with
      | some x => some x
      | none => last
    set r v :: ffillBy get set v rs

/-- Lines 50–52: forward-fill the four columns `Fulfilled at`,
`Billing Country`, `Billing Name`, `Billing Street`, each independently. -/
def fillStage (rows : List DataRow) : List DataRow :=
  let a := ffillBy (fun r => r.fulfilledAt) (fun r v => { r with fulfilledAt := v }) none rows
  let b := ffillBy (fun r => r.billingCountry) (fun r v => { r with billingCountry := v }) none a
  let c := ffillBy (fun r => r.billingName) (fun r v => { r with billingName := v }) none b
  ffillBy (fun r => r.billingStreet) (fun r v => { r with billingStreet := v }) none c

/-- Line 55: `~data["Billing Country"].isin(["NL", "FR"])` — rows whose
(gap-filled) country is `NL` or `FR` are dropped; a still-missing country
is not in the exclusion list, so the row is kept. -/
def countryFilter (rows : List DataRow) : List DataRow :=
  rows.filter (fun r =>
    decide (¬(r.billingCountry = some "NL" ∨ r.billingCountry = some "FR")))

/-- Lines 97–100: the last maximal run of digits in the product-name text
(regex `(\d+)(?!.*\d)`), parsed as a number; no digits means missing. -/
def lastNumber (s : String) : Option ℚ :=
  let run := ((s.data.reverse.dropWhile (fun c => !c.isDigit)).takeWhile Char.isDigit).reverse
  if run.isEmpty then none else some (digitsToNat run : ℚ)

/-- Lines 57–102: project and rename to the report schema, parse the two
date columns from their first 19 characters, coerce the quantity to
numeric with missing mapped to 0, set the constant `Plato percentage`,
extract `Content` from the product name, and compute `Total content`. -/
def toReportRow (r : DataRow) : ReportRow :=
  let qty : ℚ := ((r.lineitemQty.bind toNumeric).getD 0)
  let content := lastNumber (pyStr r.lineitemName)
  { invoiceOrder := r.name
    invoiceDate := parseDatetime19 (pyStr r.createdAt)
    deliveryDate := parseDatetime19 (pyStr r.fulfilledAt)
    nameOfClient := r.billingName
    addressDetails := r.billingStreet
    productName := r.lineitemName
    numberSold := qty
    content := content
    totalContent := content.map (fun c => c * qty)
    alcoholPct := r.alcohol
    platoPct := 0
    country := r.billingCountry }

/-- Lines 105–107: keep the rows whose delivery date lies in the inclusive
window; a `NaT` delivery date fails both comparisons and is dropped. -/
def dateFilter (startD endD : Int) (rows : List ReportRow) : List ReportRow :=
  rows.filter (fun r =>
    match r.deliveryDate with
    | some t => decide (startD ≤ t ∧ t ≤ endD)
    | none => false)

/-- Line 126: sum of `Total content` over the rows whose alcohol
percentage is `≤ 8.5` (a missing percentage fails the comparison and a
missing total is skipped by `skipna`). -/
def totalContentSumLower (rows : List ReportRow) : ℚ :=
  ((rows.filter (fun r =>
      match r.alcoholPct with
      | some p => decide (p ≤ (8.5 : ℚ))
      | none => false)).filterMap (fun r => r.totalContent)).sum

/-- Line 127: sum of `Total content` over the rows whose alcohol
percentage is `> 8.5`, with the same missing-value policy. -/
def totalContentSumHigher (rows : List ReportRow) : ℚ :=
  ((rows.filter (fun r =>
      match r.alcoholPct with
      | some p => decide ((8.5 : ℚ) < p)
      | none => false)).filterMap (fun r => r.totalContent)).sum

/-- Line 146: `f"{float(x):.1f}"` — fixed one-decimal rendering of the
alcohol percentage (ties of the scaled value are modelled as rounding
half away from zero; no pipeline value is such a tie). -/
def formatOneDecimal (q : ℚ) : String :=
  let n : Int := round (q * 10)
  let sign := if n < 0 then "-" else ""
  sign ++ toString (n.natAbs / 10) ++ "." ++ toString (n.natAbs % 10)

/-- Lines 145–147: the alcohol-percentage cell as output text — the empty
string for a missing value, otherwise the one-decimal rendering. -/
def alcoholText (o : Option ℚ) : String :=
  match o with
  | none => ""
  | some q => formatOneDecimal q

/-- A detail row of the returned table: every numeric field is present and
the alcohol percentage is rendered as text. -/
def renderDetail (r : ReportRow) : OutRow :=
  { invoiceOrder := r.invoiceOrder
    invoiceDate := r.invoiceDate
    deliveryDate := r.deliveryDate
    nameOfClient := r.nameOfClient
    addressDetails := r.addressDetails
    productName := r.productName
    numberSold := some r.numberSold
    content := r.content
    totalContent := r.totalContent
    alcoholPctText := alcoholText r.alcoholPct
    platoPct := some r.platoPct
    country := r.country }

/-- Lines 130–137: a synthetic summary row — only the label and the total
are populated, every other cell is `pd.NA`, which line 145 renders as the
empty alcohol-percentage text. -/
def summaryRow (label : String) (total : ℚ) : OutRow :=
  { invoiceOrder := some label
    invoiceDate := none
    deliveryDate := none
    nameOfClient := none
    addressDetails := none
    productName := none
    numberSold := none
    content := none
    totalContent := some total
    alcoholPctText := ""
    platoPct := none
    country := none }

/-- Lines 126–147: compute the two threshold sums, divide by 1000, prepend
the two summary rows, and render the alcohol column as text. -/
def outputStage (finalData : List ReportRow) : List OutRow :=
  summaryRow "Total Content <= 8.5%" (totalContentSumLower finalData / 1000)
    :: summaryRow "Total Content > 8.5%" (totalContentSumHigher finalData / 1000)
    :: finalData.map renderDetail

/-! ## The composed pipeline -/

/-- Lines 31–37: the order rows entering the join (restock filter, then
SKU normalisation). -/
def preJoinRows (t : MainTable) : List PreJoinRow :=
  skuStage (restockFilter t)

/-- Lines 31–52: the merged frame after numeric conversion and
forward-filling. -/
def afterFill (t : MainTable) (ref : List RefRow) : List DataRow :=
  fillStage ((mergeStage (preJoinRows t) ref).map alcoholNumeric)

/-- Lines 31–123: `final_data` before aggregation — country exclusion,
projection, date window, exact-duplicate removal. -/
def finalDataOf (t : MainTable) (ref : List RefRow) (startD endD : Int) :
    List ReportRow :=
  dropDuplicates (dateFilter startD endD
    ((countryFilter (afterFill t ref)).map toReportRow))

/-- `process_files` (lines 24–149): the full pipeline from the two input
tables and the two window bounds to the returned table. -/
def process_files (t : MainTable) (ref : List RefRow) (startD endD : Int) :
    List OutRow :=
  outputStage (finalDataOf t ref startD endD)

/-! ## Sample tables and rows used by concrete claims and witnesses -/

/-- A main-export row whose SKU carries a `-12` batch suffix. -/
def sampleMain : MainRow :=
  { name := none, createdAt := none, fulfillmentStatus := none,
    fulfilledAt := none, lineitemSku := some "ABC-12", lineitemQty := none,
    lineitemName := none, billingName := none, billingStreet := none,
    billingCountry := none }

/-- A reference table with two near-duplicate rows: the same SKU with two
different percentages.  `drop_duplicates()` removes neither. -/
def fanRef : List RefRow := [⟨some "A", some "5,0"⟩, ⟨some "A", some "6,0"⟩]

/-- A projected report row whose delivery date sits exactly on the lower
window bound `0`. -/
def sampleReport : ReportRow :=
  { invoiceOrder := none, invoiceDate := none, deliveryDate := some 0,
    nameOfClient := none, addressDetails := none, productName := none,
    numberSold := 0, content := none, totalContent := none,
    alcoholPct := none, platoPct := 0, country := none }

/-- A detail row with the given alcohol percentage and total content, all
other fields as in `sampleReport`. -/
def demoRow (pct tc : ℚ) : ReportRow :=
  { sampleReport with alcoholPct := some pct, totalContent := some tc }

/-- The aggregator example of the claim: total contents 1000 and 2000 in
the `≤ 8.5` bucket and 500 in the `> 8.5` bucket. -/
def demoAgg : List ReportRow :=
  [demoRow 5 1000, demoRow (8.5 : ℚ) 2000, demoRow 9 500]

/-- A concrete order line: SKU `A-1`, one unit of `"Beer 500"` shipped to
Belgium inside the demo date window. -/
def dupMainA : MainRow :=
  { name := some "#1", createdAt := some "2023-01-01 09:00:00",
    fulfillmentStatus := some "fulfilled",
    fulfilledAt := some "2023-01-02 10:00:00",
    lineitemSku := some "A-1", lineitemQty := some "1",
    lineitemName := some "Beer 500", billingName := some "C",
    billingStreet := some "S", billingCountry := some "BE" }

/-- A second, distinct order line: same fields but SKU `A-2`.  Both SKUs
normalise to `A`, and the SKU is not among the twelve projected report
columns. -/
def dupMainB : MainRow := { dupMainA with lineitemSku := some "A-2" }

/-- The two-line export used to exercise the final duplicate removal. -/
def dupT : MainTable := ⟨true, [dupMainA, dupMainB]⟩

/-- Reference table mapping SKU `A` to `5,0` percent. -/
def dupRef : List RefRow := [⟨some "A", some "5,0"⟩]

/-- Lower bound of the demo window (2023-01-01 00:00:00). -/
def dupStart : Int := civilMicros 2023 1 1 0 0 0

/-- Upper bound of the demo window (2023-02-01 00:00:00). -/
def dupEnd : Int := civilMicros 2023 2 1 0 0 0

/-- The single projected report row both demo order lines map to. -/
def dupReport : ReportRow :=
  { invoiceOrder := some "#1", invoiceDate := some 1672563600000000,
    deliveryDate := some 1672653600000000, nameOfClient := some "C",
    addressDetails := some "S", productName := some "Beer 500",
    numberSold := 1, content := some 500, totalContent := some 500,
    alcoholPct := some 5, platoPct := 0, country := some "BE" }

/-- The merged frame produced from a slice of main-export rows: restock
filter (with the status column present), SKU normalisation, de-duplicated
left join, numeric conversion.  This is the frame the forward-fill stage
receives. -/
def mergedRows (rows : List MainRow) (ref : List RefRow) : List DataRow :=
  (mergeStage (skuStage (rows.filter
    (fun r => decide (r.fulfillmentStatus ≠ some "restocked")))) ref).map
    alcoholNumeric

/-- The fill value carried after scanning a column slice: the last
non-missing entry, or the incoming carry if the slice has none. -/
def carryAfter (last : Option α) (cs : List (Option α)) : Option α :=
  cs.foldl (fun a o => match o with
    | some v => some v
    | none => a) last

/-- A main-export row with every cell missing. -/
def blankMain : MainRow :=
  { name := none, createdAt := none, fulfillmentStatus := none,
    fulfilledAt := none, lineitemSku := none, lineitemQty := none,
    lineitemName := none, billingName := none, billingStreet := none,
    billingCountry := none }

/-- A fulfilled order row billed to Germany. -/
def cexDE : MainRow :=
  { blankMain with
      billingCountry := some "DE"
      fulfillmentStatus := some "fulfilled" }

/-- A *restocked* order row billed to Belgium. -/
def cexBE : MainRow :=
  { blankMain with
      billingCountry := some "BE"
      fulfillmentStatus := some "restocked" }

/-- A fulfilled row after `cexBE` whose billing country is blank. -/
def cexBlank : MainRow :=
  { blankMain with fulfillmentStatus := some "fulfilled" }

/-- A fulfilled (non-restocked) order row billed to Belgium. -/
def cexBEok : MainRow :=
  { blankMain with
      billingCountry := some "BE"
      fulfillmentStatus := some "fulfilled" }

/-! ## Supporting lemmas -/

theorem mem_dropDupAux [DecidableEq α] {a : α} :
    ∀ (seen l : List α), a ∈ dropDupAux seen l ↔ a ∈ l ∧ a ∉ seen := by
  intro seen l
  induction l generalizing seen with
  | nil => simp [dropDupAux]
  | cons x xs ih =>
    by_cases hx : x ∈ seen
    · rw [dropDupAux, if_pos hx, ih]
      constructor
      · rintro ⟨h1, h2⟩
        exact ⟨List.mem_cons_of_mem _ h1, h2⟩
      · rintro ⟨h1, h2⟩
        rcases List.mem_cons.1 h1 with h1 | h1
        · exact absurd (h1 ▸ hx) h2
        · exact ⟨h1, h2⟩
    · rw [dropDupAux, if_neg hx]
      by_cases hax : a = x
      · subst hax
        simp [List.mem_cons, hx]
      · simp only [List.mem_cons, ih]
        tauto

theorem mem_dropDuplicates [DecidableEq α] {a : α} {l : List α} :
    a ∈ dropDuplicates l ↔ a ∈ l := by
  rw [dropDuplicates, mem_dropDupAux]
  simp

theorem nodup_dropDupAux [DecidableEq α] :
    ∀ (seen l : List α), (dropDupAux seen l).Nodup := by
  intro seen l
  induction l generalizing seen with
  | nil => simp [dropDupAux]
  | cons x xs ih =>
    by_cases hx : x ∈ seen
    · rw [dropDupAux, if_pos hx]
      exact ih seen
    · rw [dropDupAux, if_neg hx]
      refine List.nodup_cons.2 ⟨fun hmem => ?_, ih _⟩
      exact ((mem_dropDupAux _ _).1 hmem).2 (List.mem_cons_self _ _)

theorem nodup_dropDuplicates [DecidableEq α] (l : List α) :
    (dropDuplicates l).Nodup :=
  nodup_dropDupAux [] l

theorem length_le_one_of_nodup_of_const {α : Type} {l : List α}
    (hn : l.Nodup) (h : ∀ a ∈ l, ∀ b ∈ l, a = b) : l.length ≤ 1 := by
  match l with
  | [] => simp
  | [a] => simp
  | a :: b :: t =>
    exfalso
    have hab : a = b := h a (by simp) b (by simp)
    subst hab
    simp [List.nodup_cons] at hn

theorem length_mergeOne_pos (o : PreJoinRow) (ref : List RefRow) :
    1 ≤ (mergeOne o ref).length := by
  rw [mergeOne]
  by_cases h : (refMatches ref o.sku).isEmpty
  · simp [h]
  · simp only [h, if_false, Bool.false_eq_true, List.length_map]
    rcases hm : refMatches ref o.sku with _ | ⟨r, rs⟩
    · rw [hm] at h
      simp at h
    · simp

theorem mergeOne_base_sku {o : PreJoinRow} {ref : List RefRow} :
    ∀ m ∈ mergeOne o ref, m.base = o.base ∧ m.sku = o.sku := by
  intro m hm
  rw [mergeOne] at hm
  by_cases h : (refMatches ref o.sku).isEmpty
  · rw [if_pos h] at hm
    rcases List.mem_singleton.1 hm with rfl
    exact ⟨rfl, rfl⟩
  · rw [if_neg h] at hm
    rcases List.mem_map.1 hm with ⟨r, _, rfl⟩
    exact ⟨rfl, rfl⟩

theorem leftMerge_cons (o : PreJoinRow) (os : List PreJoinRow) (ref : List RefRow) :
    leftMerge (o :: os) ref = mergeOne o ref ++ leftMerge os ref := by
  simp [leftMerge]

theorem length_le_length_leftMerge (orders : List PreJoinRow) (ref : List RefRow) :
    orders.length ≤ (leftMerge orders ref).length := by
  induction orders with
  | nil => simp [leftMerge]
  | cons o os ih =>
    rw [leftMerge_cons, List.length_append, List.length_cons]
    have := length_mergeOne_pos o ref
    omega

/-! ## Sample rows used by the concrete witnesses -/

/-! ## Claims -/

/-- C2 (counterexample): SKU normalisation does not leave `"ABC"`
unchanged — the regex `(-\d+|[A-Z])$` matches the single trailing
uppercase letter `C` and strips it, producing `"AB"`. -/
theorem sku_normalization_cex :
    normalizeSku "ABC" = "AB" ∧ normalizeSku "ABC" ≠ "ABC" := by
  decide

/-- C2 (amended): SKU normalisation, applied to every order row's SKU
before the join, maps `"ABC-12"` to `"ABC"` and `"ABC99A"` to `"ABC99"`,
but maps `"ABC"` to `"AB"` (a single trailing uppercase letter is stripped
even without a `-<digits>` suffix); a SKU with no trailing `-<digits>`
suffix and no trailing uppercase letter, such as `"ABC9"`, is returned
unchanged. -/
theorem sku_normalization_amended :
    normalizeSku "ABC-12" = "ABC" ∧
    normalizeSku "ABC99A" = "ABC99" ∧
    normalizeSku "ABC" = "AB" ∧
    normalizeSku "ABC9" = "ABC9" ∧
    ∀ (t : MainTable), ∀ o ∈ preJoinRows t,
      o.sku = normalizeSku (pyStr o.base.lineitemSku) := by
  refine ⟨by decide, by decide, by decide, by decide, ?_⟩
  intro t o ho
  rcases List.mem_map.1 ho with ⟨r, _, rfl⟩
  rfl

/-- Witness for C2 (amended): the normalised-SKU invariant evaluated on a
concrete one-row table. -/
theorem sku_normalization_amended_witness :
    (⟨sampleMain, "ABC"⟩ : PreJoinRow).sku =
      normalizeSku (pyStr sampleMain.lineitemSku) :=
  sku_normalization_amended.2.2.2.2 ⟨false, [sampleMain]⟩
    ⟨sampleMain, "ABC"⟩ (by decide)

/-- C4: the locale numeric parser maps, elementwise over a column,
`"15,0"` to 15.0, `"8,5%"` to 8.5, `" 7,0 "` to 7.0, an NBSP-padded
`"7,0"` to 7.0, and non-numeric garbage such as `"n/a"` to the missing
marker; it is a total function (it never raises) and preserves the
column's length. -/
theorem to_float_eu_locale_parsing :
    to_float_eu ["15,0", "8,5%", " 7,0 ", "\u00A07,0\u00A0", "n/a"] =
      [some 15, some (8.5 : ℚ), some 7, some 7, none] ∧
    ∀ col : List String, (to_float_eu col).length = col.length := by
  constructor
  · norm_num +decide [to_float_eu, to_float_eu_elem, toFloatEuClean,
      parseDecimal, trimWs, digitsToNat,
      show ('1').toNat = 49 from by decide, show ('5').toNat = 53 from by decide,
      show ('0').toNat = 48 from by decide, show ('8').toNat = 56 from by decide,
      show ('7').toNat = 55 from by decide]
  · intro col
    simp [to_float_eu]

/-- C1: the enrichment join is left-preserving — for every order table
entering the join and every reference table, the joined table has at
least as many rows, every pre-join order row reappears in it, and an
order row whose normalised SKU matches no reference row is kept with a
missing alcohol percentage. -/
theorem join_left_preserving (orders : List PreJoinRow) (ref : List RefRow) :
    orders.length ≤ (mergeStage orders ref).length ∧
    (∀ o ∈ orders, ∃ m ∈ mergeStage orders ref, m.base = o.base ∧ m.sku = o.sku) ∧
    (∀ o ∈ orders, (∀ r ∈ ref, r.sku ≠ some o.sku) →
      (⟨o.base, o.sku, none⟩ : MergedRow) ∈ mergeStage orders ref) := by
  refine ⟨length_le_length_leftMerge orders _, ?_, ?_⟩
  · intro o ho
    have h1 : 1 ≤ (mergeOne o (dropDuplicates ref)).length :=
      length_mergeOne_pos o _
    obtain ⟨m, hm⟩ : ∃ m, m ∈ mergeOne o (dropDuplicates ref) := by
      rcases hx : mergeOne o (dropDuplicates ref) with _ | ⟨m, ms⟩
      · rw [hx] at h1
        simp at h1
      · exact ⟨m, by simp [hx]⟩
    exact ⟨m, List.mem_flatMap.2 ⟨o, ho, hm⟩, mergeOne_base_sku m hm⟩
  · intro o ho hnone
    have hmatches : refMatches (dropDuplicates ref) o.sku = [] := by
      rw [refMatches, List.filter_eq_nil_iff]
      intro r hr
      simp [hnone r (mem_dropDuplicates.1 hr)]
    have hone : mergeOne o (dropDuplicates ref) = [⟨o.base, o.sku, none⟩] := by
      rw [mergeOne, hmatches]
      rfl
    exact List.mem_flatMap.2 ⟨o, ho, by rw [hone]; exact List.mem_singleton_self _⟩

/-- Witness for C1: an unmatched order row survives a join against an
empty reference table with a missing percentage. -/
theorem join_left_preserving_witness :
    (⟨sampleMain, "ABC", none⟩ : MergedRow) ∈
      mergeStage [⟨sampleMain, "ABC"⟩] [] :=
  (join_left_preserving [⟨sampleMain, "ABC"⟩] []).2.2 ⟨sampleMain, "ABC"⟩
    (by simp) (by simp)

/-- C3 (counterexample): the join does not preserve the row count for
every pair of input tables — one order row keyed `"A"` joined against a
reference table holding `"A"` at two different percentages produces two
rows. -/
theorem join_rowcount_cex :
    (mergeStage [⟨sampleMain, "A"⟩] fanRef).length = 2 ∧
    [(⟨sampleMain, "A"⟩ : PreJoinRow)].length = 1 := by
  decide

/-- C3 (amended): the join preserves the row count whenever each SKU
occurs in at most one row of the de-duplicated reference table;
`drop_duplicates()` removes exact duplicates only, so exact ties cannot
multiply rows, but near-duplicates (same SKU, different percentage)
survive it and fan the join out. -/
theorem join_rowcount_amended (orders : List PreJoinRow) (ref : List RefRow)
    (h : ∀ a ∈ dropDuplicates ref, ∀ b ∈ dropDuplicates ref,
      a.sku = b.sku → a = b) :
    (mergeStage orders ref).length = orders.length := by
  induction orders with
  | nil => simp [mergeStage, leftMerge]
  | cons o os ih =>
    have hle : (refMatches (dropDuplicates ref) o.sku).length ≤ 1 := by
      apply length_le_one_of_nodup_of_const
      · exact (nodup_dropDuplicates ref).filter _
      · intro a ha b hb
        have ha' := List.mem_filter.1 ha
        have hb' := List.mem_filter.1 hb
        have hska : a.sku = some o.sku := by simpa using ha'.2
        have hskb : b.sku = some o.sku := by simpa using hb'.2
        exact h a ha'.1 b hb'.1 (hska.trans hskb.symm)
    have hone : (mergeOne o (dropDuplicates ref)).length = 1 := by
      rw [mergeOne]
      by_cases he : (refMatches (dropDuplicates ref) o.sku).isEmpty
      · simp [he]
      · have hpos : 1 ≤ (refMatches (dropDuplicates ref) o.sku).length := by
          rcases hm : refMatches (dropDuplicates ref) o.sku with _ | ⟨x, xs⟩
          · rw [hm] at he
            simp at he
          · simp
        simp only [he, if_false, Bool.false_eq_true, List.length_map]
        omega
    have hsplit : mergeStage (o :: os) ref =
        mergeOne o (dropDuplicates ref) ++ mergeStage os ref := by
      rw [mergeStage, mergeStage, leftMerge_cons]
    rw [hsplit, List.length_append, hone, ih, List.length_cons]
    omega

/-- Witness for C3 (amended): with a single-SKU reference table the join
leaves the one-row order table at one row. -/
theorem join_rowcount_amended_witness :
    (mergeStage [⟨sampleMain, "A"⟩] [⟨some "A", some "5,0"⟩]).length =
      [(⟨sampleMain, "A"⟩ : PreJoinRow)].length :=
  join_rowcount_amended [⟨sampleMain, "A"⟩] [⟨some "A", some "5,0"⟩] (by decide)

/-- C6: the date-range selector keeps exactly the rows whose parsed
delivery date `t` satisfies `start ≤ t ≤ end`: a row sitting exactly on
either bound is kept (when the window is nonempty), a row one microsecond
outside either bound is dropped, and a row with the no-date marker is
dropped. -/
theorem date_window_selection (startD endD : Int) (rows : List ReportRow)
    (r : ReportRow) (hr : r ∈ rows) :
    (r ∈ dateFilter startD endD rows ↔
      ∃ t, r.deliveryDate = some t ∧ startD ≤ t ∧ t ≤ endD) ∧
    (startD ≤ endD → r.deliveryDate = some startD →
      r ∈ dateFilter startD endD rows) ∧
    (startD ≤ endD → r.deliveryDate = some endD →
      r ∈ dateFilter startD endD rows) ∧
    (r.deliveryDate = some (startD - 1) → r ∉ dateFilter startD endD rows) ∧
    (r.deliveryDate = some (endD + 1) → r ∉ dateFilter startD endD rows) ∧
    (r.deliveryDate = none → r ∉ dateFilter startD endD rows) := by
  have key : r ∈ dateFilter startD endD rows ↔
      ∃ t, r.deliveryDate = some t ∧ startD ≤ t ∧ t ≤ endD := by
    rw [dateFilter, List.mem_filter]
    cases h : r.deliveryDate with
    | none => simp [h, hr]
    | some t => simp [h, hr]
  refine ⟨key, ?_, ?_, ?_, ?_, ?_⟩
  · intro hse hd
    exact key.2 ⟨startD, hd, le_refl _, hse⟩
  · intro hse hd
    exact key.2 ⟨endD, hd, hse, le_refl _⟩
  · intro hd hmem
    obtain ⟨t, ht, h1, h2⟩ := key.1 hmem
    rw [hd] at ht
    have : startD - 1 = t := by injection ht
    omega
  · intro hd hmem
    obtain ⟨t, ht, h1, h2⟩ := key.1 hmem
    rw [hd] at ht
    have : endD + 1 = t := by injection ht
    omega
  · intro hd hmem
    obtain ⟨t, ht, _, _⟩ := key.1 hmem
    rw [hd] at ht
    cases ht

/-- Witness for C6: a row dated exactly on the lower bound of the window
`[0, 10]` is kept. -/
theorem date_window_selection_witness :
    sampleReport ∈ dateFilter 0 10 [sampleReport] :=
  (date_window_selection 0 10 [sampleReport] sampleReport (by simp)).2.1
    (by decide) rfl

/-- C8: when the main export lacks the `Fulfillment Status` column the
restock filter is skipped and the pipeline still returns a report (the
returned table always holds at least the two summary rows); when the
column is present, no row with status `"restocked"` survives the filter. -/
theorem restock_column_handling :
    (∀ t : MainTable, t.hasFulfillmentStatus = false → restockFilter t = t.rows) ∧
    (∀ t : MainTable, ∀ r ∈ restockFilter t,
      t.hasFulfillmentStatus = true → r.fulfillmentStatus ≠ some "restocked") ∧
    (∀ (t : MainTable) (ref : List RefRow) (startD endD : Int),
      2 ≤ (process_files t ref startD endD).length) := by
  refine ⟨?_, ?_, ?_⟩
  · intro t h
    simp [restockFilter, h]
  · intro t r hr hcol
    rw [restockFilter, if_pos hcol] at hr
    have h2 := (List.mem_filter.1 hr).2
    simpa using h2
  · intro t ref startD endD
    rw [process_files, outputStage]
    simp

/-- Witness for C8: with the status column absent the one-row table passes
the filter untouched, and the pipeline on empty inputs still returns a
table of at least two rows. -/
theorem restock_column_handling_witness :
    restockFilter ⟨false, [sampleMain]⟩ = [sampleMain] ∧
    2 ≤ (process_files ⟨false, [sampleMain]⟩ [] 0 0).length :=
  ⟨restock_column_handling.1 ⟨false, [sampleMain]⟩ rfl,
    restock_column_handling.2.2 ⟨false, [sampleMain]⟩ [] 0 0⟩

/-- C9: when no order row survives the filtering stages, the pipeline
still returns exactly the two summary rows, each with total content 0,
the alcohol-percentage text rendered as the empty string, and every other
field missing except the label in the invoice/order column. -/
theorem empty_detail_report (t : MainTable) (ref : List RefRow)
    (startD endD : Int)
    (h : dateFilter startD endD
      ((countryFilter (afterFill t ref)).map toReportRow) = []) :
    process_files t ref startD endD =
      [{ invoiceOrder := some "Total Content <= 8.5%", invoiceDate := none,
         deliveryDate := none, nameOfClient := none, addressDetails := none,
         productName := none, numberSold := none, content := none,
         totalContent := some 0, alcoholPctText := "", platoPct := none,
         country := none },
       { invoiceOrder := some "Total Content > 8.5%", invoiceDate := none,
         deliveryDate := none, nameOfClient := none, addressDetails := none,
         productName := none, numberSold := none, content := none,
         totalContent := some 0, alcoholPctText := "", platoPct := none,
         country := none }] := by
  have hfd : finalDataOf t ref startD endD = [] := by
    rw [finalDataOf, h]
    rfl
  rw [process_files, hfd]
  norm_num [outputStage, totalContentSumLower, totalContentSumHigher, summaryRow]

/-- One step of the lower-bucket sum: a row contributes its total content
exactly when its alcohol percentage is present and `≤ 8.5` and its total
content is present; otherwise it contributes nothing. -/
theorem totalContentSumLower_cons (rows : List ReportRow) (r : ReportRow) :
    totalContentSumLower (r :: rows) =
      (match r.alcoholPct, r.totalContent with
        | some p, some tc => if p ≤ (8.5 : ℚ) then tc else 0
        | _, _ => 0) + totalContentSumLower rows := by
  simp only [totalContentSumLower, List.filter_cons]
  cases hA : r.alcoholPct with
  | none => simp
  | some p =>
    by_cases hp : p ≤ (8.5 : ℚ)
    · cases hT : r.totalContent <;>
        simp [hp, List.filterMap_cons, hT]
    · cases hT : r.totalContent <;> simp [hp, hT]

/-- One step of the higher-bucket sum, symmetric to
`totalContentSumLower_cons` with the `> 8.5` test. -/
theorem totalContentSumHigher_cons (rows : List ReportRow) (r : ReportRow) :
    totalContentSumHigher (r :: rows) =
      (match r.alcoholPct, r.totalContent with
        | some p, some tc => if (8.5 : ℚ) < p then tc else 0
        | _, _ => 0) + totalContentSumHigher rows := by
  simp only [totalContentSumHigher, List.filter_cons]
  cases hA : r.alcoholPct with
  | none => simp
  | some p =>
    by_cases hp : (8.5 : ℚ) < p
    · cases hT : r.totalContent <;>
        simp [hp, List.filterMap_cons, hT]
    · cases hT : r.totalContent <;> simp [hp, hT]

/-- C5: the aggregator partitions the detail rows by alcohol percentage
`≤ 8.5` versus `> 8.5` — a row with a missing percentage or missing total
contributes to neither sum — divides each bucket sum by 1000, and
prepends exactly two labelled summary rows; on detail rows with total
contents `[1000, 2000]` at `≤ 8.5` and `[500]` at `> 8.5` the summary
values are 3 and 0.5. -/
theorem aggregator_partition :
    (∀ (rows : List ReportRow) (r : ReportRow),
      totalContentSumLower (r :: rows) =
        (match r.alcoholPct, r.totalContent with
          | some p, some tc => if p ≤ (8.5 : ℚ) then tc else 0
          | _, _ => 0) + totalContentSumLower rows) ∧
    (∀ (rows : List ReportRow) (r : ReportRow),
      totalContentSumHigher (r :: rows) =
        (match r.alcoholPct, r.totalContent with
          | some p, some tc => if (8.5 : ℚ) < p then tc else 0
          | _, _ => 0) + totalContentSumHigher rows) ∧
    (∀ finalData : List ReportRow,
      (outputStage finalData).length = 2 + finalData.length ∧
      (outputStage finalData).take 2 =
        [summaryRow "Total Content <= 8.5%" (totalContentSumLower finalData / 1000),
         summaryRow "Total Content > 8.5%" (totalContentSumHigher finalData / 1000)]) ∧
    (totalContentSumLower demoAgg = 3000 ∧
      totalContentSumHigher demoAgg = 500 ∧
      (outputStage demoAgg).take 2 =
        [summaryRow "Total Content <= 8.5%" 3,
         summaryRow "Total Content > 8.5%" (1 / 2)]) := by
  have hlo : totalContentSumLower demoAgg = 3000 := by
    rw [demoAgg, totalContentSumLower_cons, totalContentSumLower_cons,
      totalContentSumLower_cons]
    norm_num [demoRow, sampleReport, totalContentSumLower]
  have hhi : totalContentSumHigher demoAgg = 500 := by
    rw [demoAgg, totalContentSumHigher_cons, totalContentSumHigher_cons,
      totalContentSumHigher_cons]
    norm_num [demoRow, sampleReport, totalContentSumHigher]
  refine ⟨totalContentSumLower_cons, totalContentSumHigher_cons, ?_, hlo, hhi, ?_⟩
  · intro finalData
    constructor
    · simp [outputStage]
      omega
    · simp [outputStage]
  · rw [outputStage]
    simp only [List.take]
    rw [hlo, hhi]
    norm_num

/-- Witness for C9: the pipeline on an empty main export returns exactly
the two zero summary rows. -/
theorem empty_detail_report_witness :
    process_files ⟨true, []⟩ [] 0 0 =
      [{ invoiceOrder := some "Total Content <= 8.5%", invoiceDate := none,
         deliveryDate := none, nameOfClient := none, addressDetails := none,
         productName := none, numberSold := none, content := none,
         totalContent := some 0, alcoholPctText := "", platoPct := none,
         country := none },
       { invoiceOrder := some "Total Content > 8.5%", invoiceDate := none,
         deliveryDate := none, nameOfClient := none, addressDetails := none,
         productName := none, numberSold := none, content := none,
         totalContent := some 0, alcoholPctText := "", platoPct := none,
         country := none }] :=
  empty_detail_report ⟨true, []⟩ [] 0 0 rfl

/-- C10: duplicate-row removal on the twelve projected columns keeps the
first of any two coinciding rows (the result has no duplicates and every
input row is represented), so two genuinely distinct order lines that
agree on all twelve projected columns — here differing only in their SKU
suffix — yield a single detail row whose total content is counted exactly
once: the pipeline returns 2 summary rows plus 1 detail row and the lower
summary reads 500/1000 = 0.5, not 1.0. -/
theorem dedup_collapses_identical_lines :
    (∀ l : List ReportRow,
      (dropDuplicates l).Nodup ∧ ∀ r ∈ l, r ∈ dropDuplicates l) ∧
    dupMainA ≠ dupMainB ∧
    (finalDataOf dupT dupRef dupStart dupEnd).length = 1 ∧
    (process_files dupT dupRef dupStart dupEnd).length = 3 ∧
    (process_files dupT dupRef dupStart dupEnd).head? =
      some (summaryRow "Total Content <= 8.5%" (1 / 2)) := by
  have hv5 : toFloatEuOpt (some "5,0") = some 5 := by
    norm_num +decide [toFloatEuOpt, pyStr, to_float_eu_elem, toFloatEuClean,
      parseDecimal, trimWs, digitsToNat, show ('5').toNat = 53 from by decide,
      show ('0').toNat = 48 from by decide]
  have hq1 : toNumeric "1" = some 1 := by
    norm_num +decide [toNumeric, parseDecimal, trimWs, digitsToNat,
      show ('1').toNat = 49 from by decide]
  have hbeer : lastNumber (pyStr (some "Beer 500")) = some 500 := by
    norm_num +decide [lastNumber, pyStr, digitsToNat,
      show ('5').toNat = 53 from by decide, show ('0').toNat = 48 from by decide]
  have hm : mergeStage (preJoinRows dupT) dupRef =
      [⟨dupMainA, "A", some "5,0"⟩, ⟨dupMainB, "A", some "5,0"⟩] := by
    decide
  have hd1 : parseDatetime19 (pyStr (some "2023-01-01 09:00:00")) =
      some 1672563600000000 := by decide
  have hd2 : parseDatetime19 (pyStr (some "2023-01-02 10:00:00")) =
      some 1672653600000000 := by decide
  have hproj : (countryFilter (afterFill dupT dupRef)).map toReportRow =
      [dupReport, dupReport] := by
    rw [afterFill, hm]
    simp only [List.map_cons, List.map_nil, alcoholNumeric, hv5, dupMainA, dupMainB]
    norm_num +decide [fillStage, ffillBy, countryFilter, toReportRow, hq1,
      hbeer, hd1, hd2, dupReport, List.filter]
  have hdf : dateFilter dupStart dupEnd [dupReport, dupReport] =
      [dupReport, dupReport] := by
    have hcond : (dupStart ≤ 1672653600000000 ∧
        (1672653600000000 : Int) ≤ dupEnd) := by decide
    simp [dateFilter, List.filter, dupReport, hcond]
  have hdd : dropDuplicates [dupReport, dupReport] = [dupReport] := by
    simp [dropDuplicates, dropDupAux]
  have hfd : finalDataOf dupT dupRef dupStart dupEnd = [dupReport] := by
    rw [finalDataOf, hproj, hdf, hdd]
  have hsumLow : totalContentSumLower [dupReport] = 500 := by
    rw [totalContentSumLower_cons]
    norm_num [dupReport, totalContentSumLower]
  refine ⟨?_, by decide, ?_, ?_, ?_⟩
  · intro l
    exact ⟨nodup_dropDuplicates l, fun r hr => mem_dropDuplicates.2 hr⟩
  · rw [hfd]
    rfl
  · rw [process_files, hfd]
    rfl
  · rw [process_files, hfd, outputStage, hsumLow]
    norm_num

/-- Witness for C10: the general duplicate-removal facts instantiated on a
concrete one-row table. -/
theorem dedup_collapses_identical_lines_witness :
    sampleReport ∈ dropDuplicates [sampleReport] :=
  (dedup_collapses_identical_lines.1 [sampleReport]).2 sampleReport (by simp)

/-! ## Gap filling (C7) -/

theorem afterFill_eq_fillStage_mergedRows (rows : List MainRow)
    (ref : List RefRow) :
    afterFill ⟨true, rows⟩ ref = fillStage (mergedRows rows ref) := by
  simp [afterFill, mergedRows, preJoinRows, restockFilter]

theorem mergedRows_append (xs ys : List MainRow) (ref : List RefRow) :
    mergedRows (xs ++ ys) ref = mergedRows xs ref ++ mergedRows ys ref := by
  simp [mergedRows, skuStage, mergeStage, leftMerge, List.filter_append]

theorem length_ffillList (last : Option α) (cs : List (Option α)) :
    (ffillList last cs).length = cs.length := by
  induction cs generalizing last with
  | nil => rfl
  | cons c ct ih => simp [ffillList, ih]

theorem ffillList_append (last : Option α) (xs ys : List (Option α)) :
    ffillList last (xs ++ ys) =
      ffillList last xs ++ ffillList (carryAfter last xs) ys := by
  induction xs generalizing last with
  | nil => simp [ffillList, carryAfter]
  | cons x xt ih =>
    cases x <;> simp [ffillList, carryAfter, ih]

theorem ffillList_all_filled {v : α} (cs : List (Option α))
    (h : ∀ x ∈ cs, x = some v ∨ x = none) :
    ffillList (some v) cs = List.replicate cs.length (some v) := by
  induction cs with
  | nil => rfl
  | cons c ct ih =>
    rcases h c (List.mem_cons_self _ _) with hc | hc <;>
      subst hc <;>
      simp [ffillList, List.replicate_succ,
        ih fun x hx => h x (List.mem_cons_of_mem _ hx)]

theorem ffillList_be_run {v : α} (c : Option α) (cs : List (Option α))
    (h1 : cs.head? = some (some v))
    (h2 : ∀ x ∈ cs, x = some v ∨ x = none) :
    ffillList c cs = List.replicate cs.length (some v) := by
  cases cs with
  | nil => cases h1
  | cons x xt =>
    have hx : x = some v := by
      simpa using h1
    subst hx
    simp [ffillList, List.replicate_succ,
      ffillList_all_filled xt fun x hx => h2 x (List.mem_cons_of_mem _ hx)]

theorem map_ffillBy_self {ρ σ : Type} (get : ρ → Option σ)
    (set : ρ → Option σ → ρ) (hget : ∀ r v, get (set r v) = v) :
    ∀ (last : Option σ) (rows : List ρ),
      (ffillBy get set last rows).map get = ffillList last (rows.map get) := by
  intro last rows
  induction rows generalizing last with
  | nil => rfl
  | cons r rs ih =>
    cases hr : get r <;>
      simp [ffillBy, ffillList, hr, hget, ih]

theorem map_ffillBy_other {ρ σ τ : Type} (get : ρ → Option σ)
    (set : ρ → Option σ → ρ) (g : ρ → τ)
    (hset : ∀ r v, g (set r v) = g r) :
    ∀ (last : Option σ) (rows : List ρ),
      (ffillBy get set last rows).map g = rows.map g := by
  intro last rows
  induction rows generalizing last with
  | nil => rfl
  | cons r rs ih =>
    simp [ffillBy, hset, ih]

/-- The forward-fill stage fills the billing-country column exactly as a
column-wise forward fill: the other three filled columns do not touch it. -/
theorem fillStage_country (rows : List DataRow) :
    (fillStage rows).map (fun r => r.billingCountry) =
      ffillList none (rows.map (fun r => r.billingCountry)) := by
  rw [fillStage]
  rw [map_ffillBy_other (fun (r : DataRow) => r.billingStreet)
    (fun r v => { r with billingStreet := v })
    (fun r => r.billingCountry) (fun r v => rfl)]
  rw [map_ffillBy_other (fun (r : DataRow) => r.billingName)
    (fun r v => { r with billingName := v })
    (fun r => r.billingCountry) (fun r v => rfl)]
  rw [map_ffillBy_self (fun (r : DataRow) => r.billingCountry)
    (fun r v => { r with billingCountry := v }) (fun r v => rfl)]
  rw [map_ffillBy_other (fun (r : DataRow) => r.fulfilledAt)
    (fun r v => { r with fulfilledAt := v })
    (fun r => r.billingCountry) (fun r v => rfl)]

/-- Every row of the merged frame inherits its billing country from one of
the main-export rows of the slice it was built from. -/
theorem mergedRows_country (rows : List MainRow) (ref : List RefRow) :
    ∀ m ∈ mergedRows rows ref, ∃ r ∈ rows, m.billingCountry = r.billingCountry := by
  intro m hm
  rcases List.mem_map.1 hm with ⟨mr, hmr, rfl⟩
  rcases List.mem_flatMap.1 hmr with ⟨o, ho, hmo⟩
  rcases List.mem_map.1 ho with ⟨r, hr, rfl⟩
  refine ⟨r, List.mem_of_mem_filter hr, ?_⟩
  have hbase := (mergeOne_base_sku mr hmo).1
  simp [alcoholNumeric, hbase]

/-- C7 (counterexample): gap filling is *not* independent of fulfillment
status.  In the source-ordered export `[DE row, restocked BE row, blank
row]` the restock filter removes the BE row before the forward fill runs,
so the blank row that immediately followed the BE row is filled with
`"DE"`, not `"BE"`. -/
theorem gap_fill_cex :
    (afterFill ⟨true, [cexDE, cexBE, cexBlank]⟩ []).map
        (fun r => r.billingCountry) =
      [some "DE", some "DE"] ∧
    (some "DE" : Option String) ≠ some "BE" := by
  decide

/-- C7 (amended): in a source-ordered export `pre ++ be :: blanks ++ post`
where the `"BE"` row is not restocked and the following run has blank
billing countries, every merged row arising from that run carries billing
country `"BE"` after gap filling, regardless of the other fields of the
rows involved; the run is nonempty in the merged frame.  (When the `"BE"`
row is itself restocked it is deleted before the fill and the guarantee
fails, as the counterexample shows.) -/
theorem gap_fill_amended (pre blanks post : List MainRow) (be : MainRow)
    (ref : List RefRow)
    (hbe : be.billingCountry = some "BE")
    (hst : be.fulfillmentStatus ≠ some "restocked")
    (hbl : ∀ b ∈ blanks, b.billingCountry = none) :
    1 ≤ (mergedRows (be :: blanks) ref).length ∧
    (((afterFill ⟨true, pre ++ be :: (blanks ++ post)⟩ ref).map
        (fun r => r.billingCountry)).drop
        (mergedRows pre ref).length).take
        (mergedRows (be :: blanks) ref).length =
      List.replicate (mergedRows (be :: blanks) ref).length (some "BE") := by
  have hbeSplit : mergedRows (be :: blanks) ref =
      mergedRows [be] ref ++ mergedRows blanks ref := by
    have : be :: blanks = [be] ++ blanks := rfl
    rw [this, mergedRows_append]
  have hkeep : [be].filter
      (fun r => decide (r.fulfillmentStatus ≠ some "restocked")) = [be] := by
    simp [List.filter, hst]
  have hbeLen : 1 ≤ (mergedRows [be] ref).length := by
    rw [mergedRows, hkeep]
    have h1 : mergeStage (skuStage [be]) ref =
        mergeOne ⟨be, normalizeSku (pyStr be.lineitemSku)⟩ (dropDuplicates ref) ++ [] := by
      simp [skuStage, mergeStage, leftMerge]
    rw [h1, List.append_nil, List.length_map]
    exact length_mergeOne_pos _ _
  have hlen1 : 1 ≤ (mergedRows (be :: blanks) ref).length := by
    rw [hbeSplit, List.length_append]
    omega
  refine ⟨hlen1, ?_⟩
  have hbeAll : ∀ m ∈ mergedRows [be] ref, m.billingCountry = some "BE" := by
    intro m hm
    rcases mergedRows_country [be] ref m hm with ⟨r, hr, hcr⟩
    rcases List.mem_singleton.1 hr with rfl
    rw [hcr, hbe]
  have hblAll : ∀ m ∈ mergedRows blanks ref, m.billingCountry = none := by
    intro m hm
    rcases mergedRows_country blanks ref m hm with ⟨r, hr, hcr⟩
    rw [hcr, hbl r hr]
  have hrunAll : ∀ x ∈ (mergedRows (be :: blanks) ref).map
      (fun r => r.billingCountry), x = some "BE" ∨ x = none := by
    intro x hx
    rcases List.mem_map.1 hx with ⟨m, hm, rfl⟩
    rw [hbeSplit] at hm
    rcases List.mem_append.1 hm with hm | hm
    · exact Or.inl (hbeAll m hm)
    · exact Or.inr (hblAll m hm)
  have hrunHead : ((mergedRows (be :: blanks) ref).map
      (fun r => r.billingCountry)).head? = some (some "BE") := by
    rw [hbeSplit]
    rcases hx : mergedRows [be] ref with _ | ⟨m, ms⟩
    · rw [hx] at hbeLen
      simp at hbeLen
    · have hmBE : m.billingCountry = some "BE" :=
        hbeAll m (by rw [hx]; exact List.mem_cons_self _ _)
      simp [hmBE]
  have hassoc : pre ++ be :: (blanks ++ post) =
      pre ++ ((be :: blanks) ++ post) := by
    simp
  rw [hassoc, afterFill_eq_fillStage_mergedRows, fillStage_country,
    mergedRows_append, mergedRows_append, List.map_append, List.map_append,
    ffillList_append, ffillList_append]
  rw [List.drop_left' (by rw [length_ffillList, List.length_map])]
  rw [ffillList_be_run _ _ hrunHead hrunAll]
  rw [List.take_left' (by rw [List.length_replicate, List.length_map]),
    List.length_map]

/-- Witness for C7 (amended): the guarantee evaluated on the concrete
export `[DE row, non-restocked BE row, blank row]`. -/
theorem gap_fill_amended_witness :
    1 ≤ (mergedRows [cexBEok, cexBlank] []).length ∧
    (((afterFill ⟨true, [cexDE] ++ cexBEok :: ([cexBlank] ++ [])⟩ []).map
        (fun r => r.billingCountry)).drop
        (mergedRows [cexDE] []).length).take
        (mergedRows [cexBEok, cexBlank] []).length =
      List.replicate (mergedRows [cexBEok, cexBlank] []).length (some "BE") :=
  gap_fill_amended [cexDE] [cexBlank] [] cexBEok [] rfl (by decide)
    (by decide)

end Nederland

